import Mathlib

/-!
Verification of the storage and AI-output-interpretation core of
`my-revision-helper`, shallowly embedded from
`src/my_revision_helper/storage.py` and `src/my_revision_helper/api.py`.

Python dictionaries are modelled as insertion-ordered association lists,
optional values as `Option`, machine floats used in score aggregation as `ℚ`
(only sums of 100/50/0 and one division occur), and the relational backend as
lists of typed rows with SQLAlchemy query filters translated to `List.filter`.
-/

set_option autoImplicit false

/-- The caller's identity context, as held by `StorageAdapter.__init__`
(`storage.py` lines 43-48): `user` is the optional authenticated user id,
`dbPresent` says whether a database session was supplied, and `sessionId` is
the (always present) anonymous session id. -/
structure Caller where
  user : Option String
  dbPresent : Bool
  sessionId : String
deriving Repr, DecidableEq

/-- `self.is_authenticated = user is not None and db is not None`
(`storage.py` line 47). -/
def Caller.isAuthenticated (c : Caller) : Bool :=
  c.user.isSome && c.dbPresent

/-- `StorageAdapter._get_user_id` (`storage.py` lines 58-60). -/
def Caller.userId (c : Caller) : Option String :=
  if c.isAuthenticated then c.user else none

/-- `StorageAdapter._get_session_id` (`storage.py` lines 62-64). -/
def Caller.sessionIdOpt (c : Caller) : Option String :=
  if c.isAuthenticated then none else some c.sessionId

/-- The identity key of a caller: authenticated user id or anonymous session
id (spec's AccessScope: owner = authenticated-user-id XOR session-id). -/
def Caller.ident (c : Caller) : String ⊕ String :=
  if c.isAuthenticated then Sum.inl (c.user.getD "") else Sum.inr c.sessionId

/-- Python-dict update: replace in place if the key exists — keys are unique,
so replacing the first occurrence is exact — else append (CPython dicts
preserve insertion order). -/
def dictSet {β : Type} (k : String) (v : β) : List (String × β) → List (String × β)
  | [] => [(k, v)]
  | p :: t => if p.1 == k then (k, v) :: t else p :: dictSet k v t

/-- Python-dict deletion (`del d[k]`). -/
def dictDel {β : Type} (k : String) (d : List (String × β)) : List (String × β) :=
  d.filter (fun p => p.1 != k)

/-- Python-dict lookup returning `None` when the key is absent (`d.get(k)`). -/
def dictGet {β : Type} (k : String) (d : List (String × β)) : Option β :=
  (d.find? (fun p => p.1 == k)).map (fun p => p.2)

/-! String primitives used by the embedded code, implemented over character
lists by structural recursion (the library's byte-position versions are
opaque to kernel reduction).  They realize the Python `str` operations the
source relies on. -/

/-- Python `str.strip()`: drop whitespace from both ends. -/
def pyStrip (s : String) : String :=
  String.mk (((s.data.dropWhile Char.isWhitespace).reverse.dropWhile
    Char.isWhitespace).reverse)

/-- Python `str.startswith(pre)`. -/
def strStartsWith (s pre : String) : Bool :=
  pre.data.isPrefixOf s.data

/-- Drop the first `n` characters. -/
def strDrop (s : String) (n : Nat) : String :=
  String.mk (s.data.drop n)

/-- Python `str.upper()` over ASCII letters. -/
def strToUpper (s : String) : String :=
  String.mk (s.data.map Char.toUpper)

/-- Split a character list on a separator character, keeping empty pieces
(Python `str.split(sep)` semantics). -/
def splitOnCharAux (sep : Char) : List Char → List Char → List (List Char)
  | [], acc => [acc.reverse]
  | x :: xs, acc =>
    if x == sep then acc.reverse :: splitOnCharAux sep xs []
    else splitOnCharAux sep xs (x :: acc)

/-- Python `str.split("\n")` / `str.splitlines()` as used by the source. -/
def strLines (s : String) : List String :=
  (splitOnCharAux '\n' s.data []).map String.mk

/-- Python `"\n".join(lines)`. -/
def strJoinNl : List String → String
  | [] => ""
  | [x] => x
  | x :: xs => x ++ "\n" ++ strJoinNl xs

/-- Insert an element behind every already-placed element that compares
less-or-equal to it. -/
def insertStable {α : Type} (le : α → α → Bool) (x : α) : List α → List α
  | [] => [x]
  | y :: ys => if le y x then y :: insertStable le x ys else x :: y :: ys

/-- Stable insertion sort, used to model SQL `order_by`: elements are
processed in row-insertion order, so ties keep that order. -/
def sortStable {α : Type} (le : α → α → Bool) (l : List α) : List α :=
  l.foldl (fun acc x => insertStable le x acc) []

/-- A revision record as stored by the in-memory fallback: the revision data
dict plus the `userId` / `sessionId` keys added by `create_revision`
(`storage.py` lines 117-124). -/
structure MemRevision where
  id : String
  name : String
  subject : String
  accuracyThreshold : Int
  userId : Option String
  sessionId : Option String
deriving Repr, DecidableEq

/-- A run record as stored by the in-memory fallback (`storage.py`
lines 298-305). -/
structure MemRun where
  id : String
  revisionId : String
  status : String
  createdAt : String
  userId : Option String
  sessionId : Option String
deriving Repr, DecidableEq

/-- A question dict as produced by `start_run` (`api.py` lines 713-849):
`error` is set only on the error-marker question. -/
structure Question where
  id : String
  text : String
  error : Option String
deriving Repr, DecidableEq

/-- An `AnswerResult` record (`api.py` lines 120-130), as stored per run. -/
structure Answer where
  questionId : String
  studentAnswer : String
  isCorrect : Bool
  score : String
  correctAnswer : String
  explanation : Option String
  error : Option String
deriving Repr, DecidableEq

/-- The in-process fallback store: the module-level dicts `REVISION_DEFS`,
`REVISION_RUNS`, `RUN_QUESTIONS`, `RUN_ANSWERS` of `api.py` lines 76-86. -/
structure MemStore where
  revisions : List (String × MemRevision)
  runs : List (String × MemRun)
  questions : List (String × List Question)
  answers : List (String × List Answer)
deriving Repr, DecidableEq

def MemStore.empty : MemStore := ⟨[], [], [], []⟩

/-- Identity-independent revision payload handed to `create_revision`. -/
structure RevisionData where
  id : String
  name : String
  subject : String
  accuracyThreshold : Int
deriving Repr, DecidableEq

/-- In-memory `create_revision` (`storage.py` lines 116-124): the data dict is
copied and stamped with `userId` if `_get_user_id()` is set and `sessionId` if
`_get_session_id()` is set. -/
def memCreateRevision (c : Caller) (d : RevisionData) (s : MemStore) : MemRevision × MemStore :=
  let row : MemRevision :=
    { id := d.id, name := d.name, subject := d.subject,
      accuracyThreshold := d.accuracyThreshold,
      userId := c.userId, sessionId := c.sessionIdOpt }
  (row, { s with revisions := dictSet d.id row s.revisions })

/-- In-memory `list_revisions` (`storage.py` lines 155-170): filter the values
of the revisions dict by `userId` when authenticated, else by `sessionId`. -/
def memListRevisions (c : Caller) (s : MemStore) : List MemRevision :=
  if c.isAuthenticated then
    (s.revisions.map Prod.snd).filter (fun r => r.userId == c.userId)
  else
    (s.revisions.map Prod.snd).filter (fun r => r.sessionId == some c.sessionId)

/-- In-memory `get_revision` (`storage.py` lines 201-217): lookup by id, then
return `None` unless the row's stamped identity matches the caller's. -/
def memGetRevision (c : Caller) (revisionId : String) (s : MemStore) : Option MemRevision :=
  match dictGet revisionId s.revisions with
  | none => none
  | some r =>
    if c.isAuthenticated then
      if r.userId == c.userId then some r else none
    else
      if r.sessionId == some c.sessionId then some r else none

/-- In-memory `delete_revision` (`storage.py` lines 242-262): missing row ⇒
`False`; unauthenticated caller ⇒ `False`; owner mismatch ⇒ `False`; else
delete the revision entry only (no cascade over runs/questions/answers). -/
def memDeleteRevision (c : Caller) (revisionId : String) (s : MemStore) : Bool × MemStore :=
  match dictGet revisionId s.revisions with
  | none => (false, s)
  | some r =>
    if !c.isAuthenticated then (false, s)
    else if r.userId != c.userId then (false, s)
    else (true, { s with revisions := dictDel revisionId s.revisions })

/-- Identity-independent run payload handed to `create_run`. -/
structure RunData where
  id : String
  revisionId : String
  status : String
  createdAt : String
deriving Repr, DecidableEq

/-- In-memory `create_run` (`storage.py` lines 297-305). -/
def memCreateRun (c : Caller) (d : RunData) (s : MemStore) : MemRun × MemStore :=
  let row : MemRun :=
    { id := d.id, revisionId := d.revisionId, status := d.status,
      createdAt := d.createdAt, userId := c.userId, sessionId := c.sessionIdOpt }
  (row, { s with runs := dictSet d.id row s.runs })

/-- In-memory `get_run` (`storage.py` lines 336-352). -/
def memGetRun (c : Caller) (runId : String) (s : MemStore) : Option MemRun :=
  match dictGet runId s.runs with
  | none => none
  | some r =>
    if c.isAuthenticated then
      if r.userId == c.userId then some r else none
    else
      if r.sessionId == some c.sessionId then some r else none

/-- In-memory `store_questions` (`storage.py` lines 376-378): replaces the
whole batch for the run; no identity is consulted or stamped. -/
def memStoreQuestions (runId : String) (qs : List Question) (s : MemStore) : MemStore :=
  { s with questions := dictSet runId qs s.questions }

/-- In-memory `get_questions` (`storage.py` lines 409-411): keyed by run id
only, no identity filter. -/
def memGetQuestions (runId : String) (s : MemStore) : List Question :=
  (dictGet runId s.questions).getD []

/-- In-memory `store_answer` (`storage.py` lines 429-433): append to the
run's answer list; no identity is consulted or stamped. -/
def memStoreAnswer (runId : String) (a : Answer) (s : MemStore) : MemStore :=
  { s with answers := dictSet runId ((dictGet runId s.answers).getD [] ++ [a]) s.answers }

/-- In-memory `get_answers` (`storage.py` lines 452-454): keyed by run id
only, no identity filter. -/
def memGetAnswers (runId : String) (s : MemStore) : List Answer :=
  (dictGet runId s.answers).getD []

/-- Score contribution used by both summary aggregation (`api.py`
lines 1320-1327) and `list_completed_runs` (`storage.py` lines 484-489,
525-532): Full Marks ↦ 100, Partial Marks ↦ 50, anything else ↦ 0. -/
def scoreValue (score : String) : ℚ :=
  if score == "Full Marks" then 100
  else if score == "Partial Marks" then 50
  else 0

/-- A `CompletedRun` summary row (`api.py` lines 149-159), in-memory flavour. -/
structure RunSummary where
  runId : String
  revisionId : String
  revisionName : String
  subject : String
  completedAt : String
  score : ℚ
  totalQuestions : Nat
  threshold : Int
deriving Repr, DecidableEq

/-- In-memory `list_completed_runs` (`storage.py` lines 504-546): iterate runs
in insertion order, keep the caller's rows, keep runs with at least one
answer whose revision still exists, and average the answer scores. -/
def memListCompletedRuns (c : Caller) (s : MemStore) : List RunSummary :=
  (s.runs.filterMap (fun p =>
    let runData := p.2
    let keep :=
      if c.isAuthenticated then runData.userId == c.userId
      else runData.sessionId == some c.sessionId
    if !keep then none
    else
      let answers := (dictGet p.1 s.answers).getD []
      if answers.isEmpty then none
      else
        match dictGet runData.revisionId s.revisions with
        | none => none
        | some revision =>
          let total : ℚ := (answers.map (fun a => scoreValue a.score)).sum
          some { runId := p.1, revisionId := runData.revisionId,
                 revisionName := revision.name, subject := revision.subject,
                 completedAt := runData.createdAt,
                 score := total / answers.length,
                 totalQuestions := answers.length,
                 threshold := revision.accuracyThreshold }))

/-! ## The relational backend

Rows of the tables in `models_db.py`, with the SQLAlchemy queries of
`storage.py` translated to list filters.  `created_at` timestamps are a
monotone `Nat` clock carried by the database value. -/

/-- A `revisions` row (`models_db.py` lines 30-51). -/
structure DbRevision where
  id : String
  user_id : Option String
  session_id : Option String
  name : String
  subject : String
  accuracy_threshold : Int
deriving Repr, DecidableEq

/-- A `revision_runs` row (`models_db.py` lines 54-71). -/
structure DbRun where
  id : String
  user_id : Option String
  session_id : Option String
  revision_id : String
  status : String
  created_at : Nat
deriving Repr, DecidableEq

/-- A `run_questions` row (`models_db.py` lines 74-87). -/
structure DbQuestion where
  id : String
  run_id : String
  question_text : String
  question_index : Nat
deriving Repr, DecidableEq

/-- A `run_answers` row (`models_db.py` lines 90-106). -/
structure DbAnswer where
  run_id : String
  question_id : String
  student_answer : String
  is_correct : Bool
  score : String
  correct_answer : String
  explanation : Option String
  error : Option String
  created_at : Nat
deriving Repr, DecidableEq

/-- The relational store: one list per table plus the insertion clock. -/
structure Db where
  revisions : List DbRevision
  runs : List DbRun
  questions : List DbQuestion
  answers : List DbAnswer
  clock : Nat
deriving Repr, DecidableEq

def Db.empty : Db := ⟨[], [], [], [], 0⟩

/-- Database `create_revision` (`storage.py` lines 85-102): insert a row
stamped with `_get_user_id()` and `_get_session_id()`. -/
def dbCreateRevision (c : Caller) (d : RevisionData) (db : Db) : DbRevision × Db :=
  let row : DbRevision :=
    { id := d.id, user_id := c.userId, session_id := c.sessionIdOpt,
      name := d.name, subject := d.subject, accuracy_threshold := d.accuracyThreshold }
  (row, { db with revisions := db.revisions ++ [row] })

/-- Database `list_revisions` (`storage.py` lines 131-154): filter by
`user_id` when authenticated, else by `session_id`. -/
def dbListRevisions (c : Caller) (db : Db) : List DbRevision :=
  if c.isAuthenticated then
    db.revisions.filter (fun r => r.user_id == c.user)
  else
    db.revisions.filter (fun r => r.session_id == some c.sessionId)

/-- Database `get_revision` (`storage.py` lines 174-200): `.filter(...).first()`. -/
def dbGetRevision (c : Caller) (revisionId : String) (db : Db) : Option DbRevision :=
  if c.isAuthenticated then
    (db.revisions.filter (fun r => r.id == revisionId && r.user_id == c.user)).head?
  else
    (db.revisions.filter (fun r => r.id == revisionId && r.session_id == some c.sessionId)).head?

/-- Database `delete_revision` (`storage.py` lines 222-241): unauthenticated
callers are refused before any query; otherwise the owner-scoped row is
deleted and the ORM cascade (`models_db.py` lines 51, 70-71) removes the
revision's runs and, in turn, their questions and answers. -/
def dbDeleteRevision (c : Caller) (revisionId : String) (db : Db) : Bool × Db :=
  if !c.isAuthenticated then (false, db)
  else
    match (db.revisions.filter (fun r => r.id == revisionId && r.user_id == c.user)).head? with
    | none => (false, db)
    | some _row =>
      let deadRunIds := (db.runs.filter (fun r => r.revision_id == revisionId)).map (fun r => r.id)
      (true,
       { db with
         revisions := db.revisions.filter (fun r => !(r.id == revisionId)),
         runs := db.runs.filter (fun r => !(r.revision_id == revisionId)),
         questions := db.questions.filter (fun q => !(deadRunIds.contains q.run_id)),
         answers := db.answers.filter (fun a => !(deadRunIds.contains a.run_id)) })

/-- Database `create_run` (`storage.py` lines 279-296). -/
def dbCreateRun (c : Caller) (d : RunData) (db : Db) : DbRun × Db :=
  let row : DbRun :=
    { id := d.id, user_id := c.userId, session_id := c.sessionIdOpt,
      revision_id := d.revisionId, status := d.status, created_at := db.clock }
  (row, { db with runs := db.runs ++ [row], clock := db.clock + 1 })

/-- Database `get_run` (`storage.py` lines 316-335). -/
def dbGetRun (c : Caller) (runId : String) (db : Db) : Option DbRun :=
  if c.isAuthenticated then
    (db.runs.filter (fun r => r.id == runId && r.user_id == c.user)).head?
  else
    (db.runs.filter (fun r => r.id == runId && r.session_id == some c.sessionId)).head?

/-- Database `store_questions` (`storage.py` lines 357-375): delete all
existing question rows for the run, then insert the new batch with
`question_index` equal to its position; no identity filter. -/
def dbStoreQuestions (runId : String) (qs : List Question) (db : Db) : Db :=
  let kept := db.questions.filter (fun q => !(q.run_id == runId))
  let fresh := qs.enum.map (fun p =>
    ({ id := p.2.id, run_id := runId, question_text := p.2.text,
       question_index := p.1 } : DbQuestion))
  { db with questions := kept ++ fresh }

/-- Database `get_questions` (`storage.py` lines 387-408): filter by run id
only (no identity filter) and order by `question_index`. -/
def dbGetQuestions (runId : String) (db : Db) : List DbQuestion :=
  sortStable (fun a b => a.question_index ≤ b.question_index)
    (db.questions.filter (fun q => q.run_id == runId))

/-- Database `store_answer` (`storage.py` lines 415-428): insert a row keyed
by run id only; no identity filter or stamp. -/
def dbStoreAnswer (runId : String) (a : Answer) (db : Db) : Db :=
  let row : DbAnswer :=
    { run_id := runId, question_id := a.questionId, student_answer := a.studentAnswer,
      is_correct := a.isCorrect, score := a.score, correct_answer := a.correctAnswer,
      explanation := a.explanation, error := a.error, created_at := db.clock }
  { db with answers := db.answers ++ [row], clock := db.clock + 1 }

/-- Database `get_answers` (`storage.py` lines 437-451): filter by run id only
(no identity filter), ordered by `created_at`. -/
def dbGetAnswers (runId : String) (db : Db) : List DbAnswer :=
  sortStable (fun a b => a.created_at ≤ b.created_at)
    (db.answers.filter (fun a => a.run_id == runId))

/-- A `CompletedRun` summary row, relational flavour (`completedAt` is the
run's creation timestamp, rendered by `isoformat()` in the source). -/
structure DbRunSummary where
  runId : String
  revisionId : String
  revisionName : String
  subject : String
  completedAt : Nat
  score : ℚ
  totalQuestions : Nat
  threshold : Int
deriving Repr, DecidableEq

/-- Database `list_completed_runs` (`storage.py` lines 458-503): the caller's
runs ordered by `created_at` descending; keep those with at least one answer
and an existing revision (looked up without identity filter); average the
answer scores. -/
def dbListCompletedRuns (c : Caller) (db : Db) : List DbRunSummary :=
  let runs :=
    if c.isAuthenticated then
      db.runs.filter (fun r => r.user_id == c.user)
    else
      db.runs.filter (fun r => r.session_id == some c.sessionId)
  let runs := sortStable (fun a b => b.created_at ≤ a.created_at) runs
  runs.filterMap (fun run =>
    let answers := db.answers.filter (fun a => a.run_id == run.id)
    if answers.isEmpty then none
    else
      match (db.revisions.filter (fun r => r.id == run.revision_id)).head? with
      | none => none
      | some revision =>
        let total : ℚ := (answers.map (fun a => scoreValue a.score)).sum
        some { runId := run.id, revisionId := revision.id,
               revisionName := revision.name, subject := revision.subject,
               completedAt := run.created_at,
               score := total / answers.length,
               totalQuestions := answers.length,
               threshold := revision.accuracy_threshold })

/-! ## Judgment parsing and normalization (`submit_answer`, `api.py` 1167-1271)

`json.loads` is Python standard-library code external to the repository; it
is abstracted as a parameter `jsonLoads : String → JsonLoadResult` that
distinguishes the three outcomes the code reacts to differently: a decoded
JSON object, a successful decode of a non-object value, and a
`json.JSONDecodeError`. -/

/-- The fields `submit_answer` reads from the parsed judgment JSON object. -/
structure JudgmentPayload where
  score : Option String
  isCorrectRaw : Bool
  correctAnswer : Option String
  explanation : Option String
deriving Repr, DecidableEq

/-- Outcome of a `json.loads` call as observed by `submit_answer`: a decoded
JSON object carrying the fields the code reads; a successful decode of a
non-object value (array, string, number, ...), on which `data.get` later
raises `AttributeError`; or a `json.JSONDecodeError`. -/
inductive JsonLoadResult where
  | obj (payload : JudgmentPayload)
  | nonObject
  | decodeError
deriving Repr, DecidableEq

/-- The opening brace character, written via its code point. -/
def lbrace : Char := '\x7b'

/-- The closing brace character, written via its code point. -/
def rbrace : Char := '\x7d'

def nonBrace (c : Char) : Bool := !(c == lbrace || c == rbrace)

/-- Matcher for the tail `(?:\x7b[^…]*\x7d[^…]*)*\x7d` of the judgment-extraction
regex at `api.py` line 1189, positioned after the leading brace and first
non-brace run.  As analysed from the pattern, matching is deterministic: a
closing brace ends the match, an opening brace must begin a complete
one-level group, anything else fails.  Fuel bounds the recursion and is
always supplied larger than the input length. -/
def matchGroups : Nat → List Char → Option (List Char × List Char)
  | 0, _ => none
  | _, [] => none
  | fuel + 1, c :: rest =>
    if c == rbrace then some ([c], rest)
    else if c == lbrace then
      let ys := rest.takeWhile nonBrace
      let r2 := rest.dropWhile nonBrace
      match r2 with
      | [] => none
      | c2 :: rest2 =>
        if c2 == rbrace then
          let zs := rest2.takeWhile nonBrace
          let r3 := rest2.dropWhile nonBrace
          match matchGroups fuel r3 with
          | some (m, restAfter) => some (c :: ys ++ c2 :: zs ++ m, restAfter)
          | none => none
        else none
    else none

/-- `re.search` of the pattern at `api.py` line 1189: try each successive
start position; a position matches when it holds an opening brace followed by
a non-brace run and a `matchGroups` tail. -/
def findBraceMatchAux : Nat → List Char → Option (List Char)
  | 0, _ => none
  | _, [] => none
  | fuel + 1, c :: rest =>
    if c == lbrace then
      let ys := rest.takeWhile nonBrace
      let r2 := rest.dropWhile nonBrace
      match matchGroups (r2.length + 1) r2 with
      | some (m, _) => some (c :: ys ++ m)
      | none => findBraceMatchAux fuel rest
    else findBraceMatchAux fuel rest

/-- First balanced-brace substring of the text, per the regex search at
`api.py` lines 1188-1193. -/
def findBraceMatch (s : String) : Option String :=
  (findBraceMatchAux (s.data.length + 1) s.data).map (fun l => String.mk l)

/-- Markdown code-fence stripping, `api.py` lines 1168-1180: trim the
content; when it starts with three backticks drop the first line, and drop
the last line when that line trims to three backticks. -/
def stripCodeFence (content : String) : String :=
  let fence := String.mk ['\x60', '\x60', '\x60']
  let jc := pyStrip content
  if strStartsWith jc fence then
    let lines := strLines jc
    let lines := if strStartsWith (lines.headD "") fence then lines.tail else lines
    let lines :=
      if !lines.isEmpty && pyStrip (lines.getLast?.getD "") == fence then lines.dropLast
      else lines
    strJoinNl lines
  else jc

/-- The parse cascade of `api.py` lines 1167-1236: strip a code fence and
attempt direct JSON parsing; only a `json.JSONDecodeError` (line 1186) falls
back to parsing the first balanced-brace substring (lines 1188-1199) — a
successfully decoded non-object instead raises `AttributeError` at
`data.get` (line 1200) and lands in the outer `except` (line 1236) without
any extraction attempt, as does a substring whose parse raises or decodes to
a non-object.  `some` is a parsed judgment object; `none` is every path that
raises into the `except` branch. -/
def parseJudgmentOutcome (jsonLoads : String → JsonLoadResult)
    (content : String) : Option JudgmentPayload :=
  let jc := stripCodeFence content
  match jsonLoads jc with
  | JsonLoadResult.obj d => some d
  | JsonLoadResult.nonObject => none
  | JsonLoadResult.decodeError =>
    match findBraceMatch jc with
    | some sub =>
      match jsonLoads sub with
      | JsonLoadResult.obj d => some d
      | JsonLoadResult.nonObject => none
      | JsonLoadResult.decodeError => none
    | none => none

/-- Score/explanation normalization of `api.py` lines 1200-1234: validate the
three-tier score (inferring from `is_correct` when missing or invalid),
recompute `isCorrect` from the final score, and synthesize a non-empty
explanation. -/
def normalizeJudgment (questionId studentAnswer : String) (data : JudgmentPayload) : Answer :=
  let explanation0 := data.explanation.getD ""
  let score0 := pyStrip (data.score.getD "")
  let validScores := ["Full Marks", "Partial Marks", "Incorrect"]
  let score :=
    if validScores.contains score0 then score0
    else if data.isCorrectRaw then "Full Marks" else "Incorrect"
  let isCorrect := score == "Full Marks"
  let explanation :=
    if explanation0 != "" then explanation0
    else if score == "Full Marks" then "Your answer is completely correct!"
    else if score == "Partial Marks" then
      "Your answer shows some understanding. The correct answer is: " ++
        data.correctAnswer.getD "N/A" ++ ". Review what was missing or incorrect."
    else
      "The correct answer is: " ++ data.correctAnswer.getD "N/A" ++
        ". Please review the question and try again."
  { questionId := questionId, studentAnswer := studentAnswer,
    isCorrect := isCorrect, score := score,
    correctAnswer :=
      match data.correctAnswer with
      | some ca => ca
      | none => "",
    explanation := some explanation, error := none }

/-- Error `AnswerResult` built by the `except` branch of `submit_answer`
(`api.py` lines 1241-1249) and the no-client / no-question-text branch
(lines 1259-1267). -/
def errorAnswer (questionId studentAnswer msg : String) : Answer :=
  { questionId := questionId, studentAnswer := studentAnswer,
    isCorrect := false, score := "Incorrect", correctAnswer := "",
    explanation := none, error := some msg }

/-- Marking a model response: parse cascade then normalization on success,
the explicit error value on failure (`api.py` lines 1167-1249; the stored
message interpolates the caught exception's text). -/
def markAnswerFromContent (jsonLoads : String → JsonLoadResult)
    (questionId studentAnswer content : String) : Answer :=
  match parseJudgmentOutcome jsonLoads content with
  | some data => normalizeJudgment questionId studentAnswer data
  | none => errorAnswer questionId studentAnswer
      "Failed to mark answer using AI: judgment JSON could not be parsed"

/-! ## Endpoint logic (`api.py`) -/

/-- `ln.strip("- ").strip()` applied to each response line in `start_run`
(`api.py` line 825): strip `-` and space from both ends, then whitespace. -/
def cleanLine (s : String) : String :=
  pyStrip (String.mk (((s.data.dropWhile (fun c => c == '-' || c == ' ')).reverse.dropWhile
    (fun c => c == '-' || c == ' ')).reverse))

def msgNoApiKey : String :=
  "OpenAI API key not configured. Please set OPENAI_API_KEY environment variable."

def msgNoDescription : String :=
  "No description provided for this revision. Please add a description or upload files with content."

def msgEmptyResponse : String :=
  "OpenAI returned an empty response. Please try again or check your API configuration."

/-- The error-marker question stored when generation fails
(`api.py` lines 842-849): note its id is the fixed string `"error"`. -/
def errorQuestion (msg : String) : Question :=
  { id := "error", text := "ERROR: " ++ msg, error := some msg }

/-- The question batch built by `start_run` (`api.py` lines 712-849) as a
function of the run id, the desired count, whether an OpenAI client is
configured, the revision description, and the outcome of the external
generation call (`Except.error` models a raised exception). -/
def startRunQuestions (runId : String) (desiredCount : Nat) (clientAvailable : Bool)
    (description : String) (gen : Except String String) : List Question :=
  if !clientAvailable then [errorQuestion msgNoApiKey]
  else if description == "" then [errorQuestion msgNoDescription]
  else
    match gen with
    | Except.error e => [errorQuestion ("Failed to generate questions: " ++ e)]
    | Except.ok content =>
      let lines := ((strLines content).map cleanLine).filter (fun ln => ln != "")
      if lines.isEmpty then [errorQuestion msgEmptyResponse]
      else
        (lines.take desiredCount).enum.map (fun p =>
          { id := runId ++ "-q" ++ toString (p.1 + 1), text := p.2, error := none })

/-- `get_question_count` over the fallback backend (`api.py` lines 926-938):
builds a `StorageAdapter` from the caller but `get_questions` never consults
the identity. -/
def getQuestionCountMem (_c : Caller) (runId : String) (s : MemStore) : Nat :=
  (memGetQuestions runId s).length

/-- `get_question_count` over the relational backend. -/
def getQuestionCountDb (_c : Caller) (runId : String) (db : Db) : Nat :=
  (dbGetQuestions runId db).length

/-- `get_next_question` over the fallback backend (`api.py` lines 941-957):
`None` once `len(answers) >= len(questions)`, else the question at index
`len(answers)`. -/
def getNextQuestionMem (_c : Caller) (runId : String) (s : MemStore) : Option Question :=
  let qs := memGetQuestions runId s
  let answers := memGetAnswers runId s
  if qs.length ≤ answers.length then none
  else qs.get? answers.length

/-- `list_completed_runs` endpoint over the fallback backend
(`api.py` lines 905-923): anonymous callers are answered with the empty list
before the storage adapter is consulted. -/
def listCompletedRunsEndpointMem (user : Option String) (sessionId : String)
    (s : MemStore) : List RunSummary :=
  match user with
  | none => []
  | some u => memListCompletedRuns ⟨some u, false, sessionId⟩ s

/-- `list_completed_runs` endpoint over the relational backend. -/
def listCompletedRunsEndpointDb (user : Option String) (sessionId : String)
    (db : Db) : List DbRunSummary :=
  match user with
  | none => []
  | some u => dbListCompletedRuns ⟨some u, true, sessionId⟩ db

def msgNoQuestionText (questionId : String) : String :=
  "Question text not found for question ID " ++ questionId ++
    ". This may indicate a problem with question generation."

/-- `submit_answer` over the fallback backend (`api.py` lines 960-1271):
`none` models the 404 raised when `get_run` denies access; otherwise the
marking result — AI-marked when a client is configured and the question text
was found, the explicit error value otherwise — is appended to the run's
answers via `store_answer`. -/
def submitAnswerMem (c : Caller) (runId questionId answerText : String)
    (clientAvailable : Bool) (content : String)
    (jsonLoads : String → JsonLoadResult) (s : MemStore) :
    Option (Answer × MemStore) :=
  match memGetRun c runId s with
  | none => none
  | some _run =>
    let questionText :=
      (((memGetQuestions runId s).find? (fun q => q.id == questionId)).map
        (fun q => q.text)).getD ""
    let result :=
      if clientAvailable && questionText != "" then
        markAnswerFromContent jsonLoads questionId answerText content
      else if !clientAvailable then
        errorAnswer questionId answerText msgNoApiKey
      else
        errorAnswer questionId answerText (msgNoQuestionText questionId)
    some (result, memStoreAnswer runId result s)

/-- Summary aggregation of `get_summary` (`api.py` lines 1319-1330):
Full Marks 100, Partial Marks 50, Incorrect 0, averaged over all stored
answers; 0 when there are none. -/
def overallAccuracy (answers : List Answer) : ℚ :=
  if answers.isEmpty then 0
  else (answers.map (fun a => scoreValue a.score)).sum / answers.length

/-! ## Multiple-choice question parser (spec-modelled)

`parse_multiple_choice_questions` is imported from `my_revision_helper.api`
by `test_multiple_choice_parsing.py`, but its definition is not present under
`src/`; the definitions below are modelled from spec §4.1. -/

/-- Modelled from the spec: split the text into blocks separated by blank
lines (§4.1 structured-text format). -/
def splitBlocksAux : List String → List String → List (List String)
  | [], acc => if acc.isEmpty then [] else [acc.reverse]
  | l :: rest, acc =>
    if pyStrip l == "" then
      if acc.isEmpty then splitBlocksAux rest []
      else acc.reverse :: splitBlocksAux rest []
    else splitBlocksAux rest (l :: acc)

/-- Modelled from the spec: the blank-line-separated blocks of the input. -/
def splitBlocks (lines : List String) : List (List String) :=
  splitBlocksAux lines []

/-- Modelled from the spec: recognize an option line `<Letter>) <text>`
restricted to letters A-D; any other line shape is not an option line. -/
def optionLine? (l : String) : Option (String × String) :=
  let t := pyStrip l
  match t.data with
  | c :: p :: rest =>
    if (c == 'A' || c == 'B' || c == 'C' || c == 'D') && p == ')' then
      some (String.mk [c], pyStrip (String.mk rest))
    else none
  | _ => none

/-- Modelled from the spec: the block's parsed options, in order. -/
def blockOptions (bl : List String) : List (String × String) :=
  bl.filterMap optionLine?

/-- Modelled from the spec: the letters of the block's parsed options. -/
def blockOptionLetters (bl : List String) : List String :=
  (blockOptions bl).map Prod.fst

/-- Modelled from the spec: the text of the block's `QUESTION:` line. -/
def blockQuestionText (bl : List String) : Option String :=
  (bl.find? (fun l => strStartsWith (pyStrip l) "QUESTION:")).map
    (fun l => pyStrip (strDrop (pyStrip l) 9))

/-- Modelled from the spec: the `CORRECT: <Letter>` letter, uppercased for
case-insensitive matching. -/
def blockCorrectLetter (bl : List String) : Option String :=
  (bl.find? (fun l => strStartsWith (pyStrip l) "CORRECT:")).map
    (fun l => strToUpper (pyStrip (strDrop (pyStrip l) 8)))

/-- Modelled from the spec: the `RATIONALE:`/`EXPLANATION:` text together
with the following lines of the block, or the fixed default. -/
def blockRationale (bl : List String) : String :=
  match bl.findIdx? (fun l =>
      strStartsWith (pyStrip l) "RATIONALE:" || strStartsWith (pyStrip l) "EXPLANATION:") with
  | none => "Correct answer selected."
  | some i =>
    let l := (bl.get? i).getD ""
    let first :=
      if strStartsWith (pyStrip l) "RATIONALE:" then pyStrip (strDrop (pyStrip l) 10)
      else pyStrip (strDrop (pyStrip l) 12)
    strJoinNl (first :: (bl.drop (i + 1)).map pyStrip)

/-- Modelled from the spec: a block is accepted only with a question line, at
least one option, and a `CORRECT` letter matching a parsed option; the result
is (question text, option texts, correct index, rationale). -/
def parseMcBlock (bl : List String) : Option (String × List String × Nat × String) :=
  match blockQuestionText bl, blockCorrectLetter bl with
  | some qt, some cl =>
    let opts := blockOptions bl
    if opts.isEmpty then none
    else
      match (opts.map Prod.fst).findIdx? (fun letter => letter == cl) with
      | some i => some (qt, opts.map Prod.snd, i, blockRationale bl)
      | none => none
  | _, _ => none

/-- A parsed multiple-choice question record (spec §3 Question). -/
structure McQuestion where
  id : String
  text : String
  questionStyle : String
  options : List String
  correctAnswerIndex : Nat
  rationale : String
deriving Repr, DecidableEq

/-- The fields read from one object of the JSON fallback array (spec §4.1). -/
structure McJsonItem where
  question : Option String
  options : Option (List String)
  correct : Option String
  rationale : Option String
  explanation : Option String
deriving Repr, DecidableEq

/-- Modelled from the spec: map a correct-answer letter to a zero-based
index, case-insensitively. -/
def letterIndex (s : String) : Option Nat :=
  let u := strToUpper (pyStrip s)
  if u == "A" then some 0
  else if u == "B" then some 1
  else if u == "C" then some 2
  else if u == "D" then some 3
  else none

/-- Modelled from the spec: one JSON-fallback object; objects missing
`question` or `options` (or with an unmappable letter) are skipped, and the
first non-empty of `rationale`/`explanation` wins, else the default. -/
def mcJsonItemFields (it : McJsonItem) : Option (String × List String × Nat × String) :=
  match it.question, it.options with
  | some q, some opts =>
    match it.correct.bind letterIndex with
    | some i =>
      let rat :=
        if (it.rationale.getD "") != "" then it.rationale.getD ""
        else if (it.explanation.getD "") != "" then it.explanation.getD ""
        else "Correct answer selected."
      some (q, opts, i, rat)
    | none => none
  | _, _ => none

/-- Modelled from the spec: `parse_multiple_choice_questions(rawText, runId,
desiredCount)`.  Structured-text blocks are tried first and win for the whole
input when any block is accepted; otherwise the whole text is parsed as a
JSON array (the external `json.loads` is the parameter `jsonArr`, `none`
modelling a parse error); otherwise the empty list. -/
def parseMultipleChoiceQuestions (jsonArr : String → Option (List McJsonItem))
    (content runId : String) (desiredCount : Nat) : List McQuestion :=
  let accepted := (splitBlocks (strLines content)).filterMap parseMcBlock
  let build (l : List (String × List String × Nat × String)) : List McQuestion :=
    (l.take desiredCount).enum.map (fun p =>
      { id := runId ++ "-q" ++ toString (p.1 + 1), text := p.2.1,
        questionStyle := "multiple-choice", options := p.2.2.1,
        correctAnswerIndex := p.2.2.2.1, rationale := p.2.2.2.2 })
  if !accepted.isEmpty then build accepted
  else
    match jsonArr content with
    | some items => build (items.filterMap mcJsonItemFields)
    | none => []

/-! ## Helper lemmas -/

theorem dictGet_dictSet_self {β : Type} (k : String) (v : β) (d : List (String × β)) :
    dictGet k (dictSet k v d) = some v := by
  induction d with
  | nil => simp [dictGet, dictSet, List.find?]
  | cons p t ih =>
    by_cases hp : p.1 = k
    · simp [dictGet, dictSet, hp, List.find?]
    · have hp' : (p.1 == k) = false := by simp [hp]
      simp only [dictSet, hp', Bool.false_eq_true, if_false]
      simpa [dictGet, List.find?, hp'] using ih

theorem memGetAnswers_memStoreAnswer (runId : String) (a : Answer) (s : MemStore) :
    memGetAnswers runId (memStoreAnswer runId a s) = memGetAnswers runId s ++ [a] := by
  simp [memGetAnswers, memStoreAnswer, dictGet_dictSet_self]

/-! ## Claims -/

/-- C2: `listCompletedRuns` called through the API by an anonymous identity
(no authenticated user) always returns the empty list — on either backend and
for any stored state, including sessions with answered runs — because the
endpoint answers `[]` before consulting the storage adapter. -/
theorem c2_listCompletedRuns_anonymous_empty :
    ∀ (sessionId : String) (s : MemStore) (db : Db),
      listCompletedRunsEndpointMem none sessionId s = [] ∧
      listCompletedRunsEndpointDb none sessionId db = [] :=
  fun _ _ _ => ⟨rfl, rfl⟩

/-- C8: `deleteRevision` invoked by an anonymous identity (no user object)
always returns failure and leaves the store unchanged, on both backends, for
every revision id and every stored state — including a revision stamped with
the caller's exact session id. -/
theorem c8_deleteRevision_anonymous_denied :
    ∀ (dbp : Bool) (sessionId revisionId : String) (s : MemStore) (db : Db),
      memDeleteRevision ⟨none, dbp, sessionId⟩ revisionId s = (false, s) ∧
      dbDeleteRevision ⟨none, true, sessionId⟩ revisionId db = (false, db) := by
  intro dbp sessionId revisionId s db
  constructor
  · unfold memDeleteRevision
    cases dictGet revisionId s.revisions with
    | none => rfl
    | some r => simp [Caller.isAuthenticated]
  · rfl

/-- C4: the judgment returned by `submit_answer` always has `isCorrect`
recomputed as `score == "Full Marks"` from the validated score, and a payload
whose `score` field reads `"Partial Marks"` always yields `isCorrect = false`
(and keeps the `Partial Marks` score), whatever `is_correct` the payload
carried. -/
theorem c4_isCorrect_recomputed_from_score :
    ∀ (qid ans : String) (data : JudgmentPayload),
      ((normalizeJudgment qid ans data).isCorrect =
        ((normalizeJudgment qid ans data).score == "Full Marks")) ∧
      (pyStrip (data.score.getD "") = "Partial Marks" →
        (normalizeJudgment qid ans data).score = "Partial Marks" ∧
        (normalizeJudgment qid ans data).isCorrect = false) := by
  intro qid ans data
  constructor
  · simp [normalizeJudgment]
  · intro h
    simp [normalizeJudgment, h]

/-- Witness for C4 at a concrete payload carrying both `score = "Partial
Marks"` and `is_correct = true`. -/
theorem c4_isCorrect_recomputed_from_score_witness :
    (normalizeJudgment "q1" "my answer"
      ⟨some "Partial Marks", true, some "4", some ""⟩).score = "Partial Marks" ∧
    (normalizeJudgment "q1" "my answer"
      ⟨some "Partial Marks", true, some "4", some ""⟩).isCorrect = false :=
  (c4_isCorrect_recomputed_from_score "q1" "my answer"
    ⟨some "Partial Marks", true, some "4", some ""⟩).2 (by decide)

/-- Judgment content fixture for the C5 counterexample: a JSON array that
wraps a judgment object — `json.loads` of the whole text succeeds but
returns a list, not an object. -/
def c5Content : String :=
  "[\x7b\"score\": \"Full Marks\", \"is_correct\": true\x7d]"

/-- The balanced-brace substring of `c5Content`, which parses to a valid
judgment object. -/
def c5Inner : String :=
  "\x7b\"score\": \"Full Marks\", \"is_correct\": true\x7d"

/-- A `json.loads` fixture for the C5 counterexample, mirroring the real
decoder on the two strings involved: the whole text decodes to a non-object,
the brace substring decodes to a judgment object. -/
def c5JsonLoads (s : String) : JsonLoadResult :=
  if s == c5Content then JsonLoadResult.nonObject
  else if s == c5Inner then JsonLoadResult.obj ⟨some "Full Marks", true, none, none⟩
  else JsonLoadResult.decodeError

/-- C5 counterexample: on `c5Content`, direct JSON parsing succeeds (no
decode error) and the balanced-brace extraction exists and would parse to a
judgment object, yet `submit_answer` surfaces the error value — field access
on the decoded array raises before extraction is ever attempted — so an
error is surfaced in a case where the three stages named by the claim have
not all failed. -/
theorem c5_counterexample :
    c5JsonLoads (stripCodeFence c5Content) = JsonLoadResult.nonObject ∧
    findBraceMatch (stripCodeFence c5Content) = some c5Inner ∧
    c5JsonLoads c5Inner = JsonLoadResult.obj ⟨some "Full Marks", true, none, none⟩ ∧
    (markAnswerFromContent c5JsonLoads "q1" "my answer" c5Content).error ≠ none := by
  decide

/-- C5 (amended): every path on which the parse cascade fails to produce a
JSON object — a decode error with no parseable balanced-brace substring, or
a successful decode of a non-object payload, which raises at field access
before any extraction is attempted — surfaces the explicit error value:
score forced to `"Incorrect"`, `isCorrect` false, a non-null `error` and a
null `explanation`; and a non-null `error` arises exactly on these parse
failures, which are the only failures the judgment subsystem surfaces. -/
theorem c5_judgmentParseFailure_error_value :
    ∀ (jsonLoads : String → JsonLoadResult) (qid ans content : String),
      ((markAnswerFromContent jsonLoads qid ans content).error ≠ none ↔
        parseJudgmentOutcome jsonLoads content = none) ∧
      (parseJudgmentOutcome jsonLoads content = none →
        (markAnswerFromContent jsonLoads qid ans content).score = "Incorrect" ∧
        (markAnswerFromContent jsonLoads qid ans content).isCorrect = false ∧
        (markAnswerFromContent jsonLoads qid ans content).explanation = none ∧
        (markAnswerFromContent jsonLoads qid ans content).error ≠ none) := by
  intro jl qid ans content
  cases h : parseJudgmentOutcome jl content with
  | none => simp [markAnswerFromContent, h, errorAnswer]
  | some d => simp [markAnswerFromContent, h, normalizeJudgment]

/-- Witness for C5 (amended): a concrete unparseable response — every
`json.loads` call raises a decode error and no balanced-brace substring is
present. -/
theorem c5_judgmentParseFailure_error_value_witness :
    (markAnswerFromContent (fun _ => JsonLoadResult.decodeError)
      "q1" "my answer" "no json here").score = "Incorrect" ∧
    (markAnswerFromContent (fun _ => JsonLoadResult.decodeError)
      "q1" "my answer" "no json here").isCorrect = false ∧
    (markAnswerFromContent (fun _ => JsonLoadResult.decodeError)
      "q1" "my answer" "no json here").explanation = none ∧
    (markAnswerFromContent (fun _ => JsonLoadResult.decodeError)
      "q1" "my answer" "no json here").error ≠ none :=
  (c5_judgmentParseFailure_error_value (fun _ => JsonLoadResult.decodeError)
    "q1" "my answer" "no json here").2 (by decide)

/-- Answer fixture for the C7 counterexample: first answer to question `r-q1`. -/
def c7Answer1 : Answer :=
  { questionId := "r-q1", studentAnswer := "4", isCorrect := true, score := "Full Marks",
    correctAnswer := "4", explanation := some "ok", error := none }

/-- Answer fixture for the C7 counterexample: a second answer to the same
question `r-q1` (the core does not deduplicate per-question answers). -/
def c7Answer2 : Answer :=
  { questionId := "r-q1", studentAnswer := "four", isCorrect := false,
    score := "Partial Marks", correctAnswer := "4", explanation := some "ok", error := none }

/-- Store fixture for the C7 counterexample: run `r` has two questions and
two stored answers, both answering `r-q1`; `r-q2` has no matching answer. -/
def c7Store : MemStore :=
  { revisions := [], runs := [],
    questions := [("r", [⟨"r-q1", "Q1?", none⟩, ⟨"r-q2", "Q2?", none⟩])],
    answers := [("r", [c7Answer1, c7Answer2])] }

/-- C7 counterexample: the next-question operation returns no question for a
run in which a question has no matching answer — two answers to the same
question suffice — so "returns no question exactly when every question has a
matching answer" fails on the code. -/
theorem c7_counterexample :
    getNextQuestionMem ⟨none, false, "s"⟩ "r" c7Store = none ∧
    ∃ q ∈ memGetQuestions "r" c7Store,
      ∀ a ∈ memGetAnswers "r" c7Store, a.questionId ≠ q.id := by
  decide

/-- C7 (amended): the next-question operation returns no question exactly
when the number of stored answers reaches the number of stored questions
(a pure count comparison, which coincides with "every question answered"
only under the one-answer-per-question caller discipline); and completion is
never stored — storing an answer leaves the run records untouched. -/
theorem c7_nextQuestion_count_based :
    ∀ (c : Caller) (runId : String) (s : MemStore) (a : Answer),
      (getNextQuestionMem c runId s = none ↔
        (memGetQuestions runId s).length ≤ (memGetAnswers runId s).length) ∧
      (memStoreAnswer runId a s).runs = s.runs := by
  intro c runId s a
  constructor
  · by_cases h : (memGetQuestions runId s).length ≤ (memGetAnswers runId s).length
    · simp [getNextQuestionMem, h]
    · simp [getNextQuestionMem, h, List.get?_eq_none]
  · rfl

theorem startRunQuestions_mem_shape {r : String} {n : Nat} {cl : Bool} {d : String}
    {g : Except String String} {q : Question}
    (hq : q ∈ startRunQuestions r n cl d g) :
    (∃ i t, q = { id := r ++ "-q" ++ toString (i + 1), text := t, error := none }) ∨
    (q.id = "error" ∧ q.error ≠ none) := by
  unfold startRunQuestions at hq
  split at hq
  · simp only [List.mem_singleton] at hq
    subst hq
    exact Or.inr (by simp [errorQuestion])
  · split at hq
    · simp only [List.mem_singleton] at hq
      subst hq
      exact Or.inr (by simp [errorQuestion])
    · split at hq
      · simp only [List.mem_singleton] at hq
        subst hq
        exact Or.inr (by simp [errorQuestion])
      · next content =>
        by_cases hl : (((strLines content).map cleanLine).filter (fun ln => ln != "")).isEmpty
        · simp only [hl, if_true] at hq
          simp only [List.mem_singleton] at hq
          subst hq
          exact Or.inr (by simp [errorQuestion])
        · simp only [hl, if_false, Bool.false_eq_true] at hq
          rcases List.mem_map.mp hq with ⟨p, _hp, rfl⟩
          exact Or.inl ⟨p.1, p.2, rfl⟩

theorem string_append_left_cancel {r1 r2 s1 s2 : String}
    (hlen : r1.length = r2.length) (h : r1 ++ s1 = r2 ++ s2) : r1 = r2 := by
  have hd : r1.data ++ s1.data = r2.data ++ s2.data := by
    have h' := congrArg String.data h
    simpa using h'
  have hl : r1.data.length = r2.data.length := hlen
  cases r1 with
  | mk d1 =>
    cases r2 with
    | mk d2 =>
      simp only at hd hl
      exact congrArg String.mk (List.append_inj_left hd hl)

/-- C9 counterexample: for two distinct runs whose question generation
failed, `start_run` stores a question with the same fixed id `"error"` in
both — question ids are not unique across runs in the failure case. -/
theorem c9_counterexample :
    (startRunQuestions "r1" 2 false "d" (Except.ok "x")).map Question.id = ["error"] ∧
    (startRunQuestions "r2" 2 false "d" (Except.ok "x")).map Question.id = ["error"] ∧
    ("r1" : String) ≠ "r2" := by
  decide

/-- C9 (amended): every question stored by `start_run` on the successful
generation path has id `runId ++ "-q" ++ ordinal`, and such ids never collide
across two distinct runs whose run ids have equal length (run ids are
uuid4 strings, all of one length); but the question stored when generation
fails carries the fixed id `"error"`, shared by every failed run. -/
theorem c9_question_ids_amended :
    ∀ (r1 r2 : String) (n1 n2 : Nat) (c1 c2 : Bool) (d1 d2 : String)
      (g1 g2 : Except String String) (q1 q2 : Question),
      q1 ∈ startRunQuestions r1 n1 c1 d1 g1 →
      q2 ∈ startRunQuestions r2 n2 c2 d2 g2 →
      (q1.error = none → ∃ i, q1.id = r1 ++ "-q" ++ toString (i + 1)) ∧
      (q1.error ≠ none → q1.id = "error") ∧
      (q1.error = none → q2.error = none → r1.length = r2.length → r1 ≠ r2 →
        q1.id ≠ q2.id) := by
  intro r1 r2 n1 n2 c1 c2 d1 d2 g1 g2 q1 q2 h1 h2
  refine ⟨?_, ?_, ?_⟩
  · intro he
    rcases startRunQuestions_mem_shape h1 with ⟨i, t, rfl⟩ | ⟨_, herr⟩
    · exact ⟨i, rfl⟩
    · exact absurd he herr
  · intro he
    rcases startRunQuestions_mem_shape h1 with ⟨i, t, rfl⟩ | ⟨hid, _⟩
    · exact absurd rfl he
    · exact hid
  · intro he1 he2 hlen hne
    rcases startRunQuestions_mem_shape h1 with ⟨i, t, rfl⟩ | ⟨_, herr⟩
    · rcases startRunQuestions_mem_shape h2 with ⟨j, u, rfl⟩ | ⟨_, herr2⟩
      · intro hid
        simp only at hid
        rw [String.append_assoc, String.append_assoc] at hid
        exact hne (string_append_left_cancel hlen hid)
      · exact absurd he2 herr2
    · exact absurd he1 herr

/-- Witness for C9 (amended) at two concrete single-question runs. -/
theorem c9_question_ids_amended_witness :
    (⟨"ra-q1", "Qa", none⟩ : Question) ∈ startRunQuestions "ra" 2 true "x" (Except.ok "Qa") ∧
    (⟨"rb-q1", "Qb", none⟩ : Question) ∈ startRunQuestions "rb" 2 true "x" (Except.ok "Qb") ∧
    ("ra-q1" : String) ≠ "rb-q1" := by
  refine ⟨by decide, by decide, ?_⟩
  have h := (c9_question_ids_amended "ra" "rb" 2 2 true true "x" "x"
    (Except.ok "Qa") (Except.ok "Qb") ⟨"ra-q1", "Qa", none⟩ ⟨"rb-q1", "Qb", none⟩
    (by decide) (by decide)).2.2 rfl rfl (by decide) (by decide)
  exact h
theorem markAnswerFromContent_error_score
    {jl : String → JsonLoadResult} {qid ans content : String}
    (h : (markAnswerFromContent jl qid ans content).error ≠ none) :
    (markAnswerFromContent jl qid ans content).score = "Incorrect" := by
  unfold markAnswerFromContent at h ⊢
  cases hp : parseJudgmentOutcome jl content with
  | none => simp [hp, errorAnswer]
  | some d =>
    rw [hp] at h
    simp [normalizeJudgment] at h

theorem overallAccuracy_append_zero (as : List Answer) (a : Answer)
    (h : scoreValue a.score = 0) :
    overallAccuracy (as ++ [a]) =
      (as.map (fun x => scoreValue x.score)).sum / (as.length + 1) := by
  unfold overallAccuracy
  have hne : (as ++ [a]).isEmpty = false := by
    cases as <;> simp
  rw [hne]
  simp only [Bool.false_eq_true, if_false, List.map_append, List.map_cons, List.map_nil,
    List.sum_append, List.sum_cons, List.sum_nil, h, add_zero, List.length_append,
    List.length_cons, List.length_nil, Nat.zero_add]
  push_cast
  ring_nf

/-- C10: every `submit_answer` call that passes the run-access check persists
exactly one answer row — also when marking fails (no AI client, question text
not found, or judgment-parse failure) — and an error-marked answer carries
score `"Incorrect"`, entering the summary denominator while adding nothing to
the numerator, so it contributes 0 to `overallAccuracy` instead of being
excluded. -/
theorem c10_submitAnswer_persists_one_row :
    ∀ (c : Caller) (runId qid ans : String) (client : Bool) (content : String)
      (jl : String → JsonLoadResult) (s : MemStore)
      (result : Answer) (s' : MemStore),
      submitAnswerMem c runId qid ans client content jl s = some (result, s') →
      memGetAnswers runId s' = memGetAnswers runId s ++ [result] ∧
      (result.error ≠ none →
        result.score = "Incorrect" ∧
        overallAccuracy (memGetAnswers runId s') =
          ((memGetAnswers runId s).map (fun x => scoreValue x.score)).sum /
            ((memGetAnswers runId s).length + 1)) := by
  intro c runId qid ans client content jl s result s' h
  unfold submitAnswerMem at h
  cases hrun : memGetRun c runId s with
  | none => rw [hrun] at h; exact absurd h (by simp)
  | some run =>
    rw [hrun] at h
    simp only [Option.some_inj, Prod.mk.injEq] at h
    obtain ⟨hres, hs'⟩ := h
    subst hres
    subst hs'
    refine ⟨memGetAnswers_memStoreAnswer runId _ s, ?_⟩
    intro herr
    have hsc : (if client &&
          ((((memGetQuestions runId s).find? (fun q => q.id == qid)).map
            (fun q => q.text)).getD "" != "") then
          markAnswerFromContent jl qid ans content
        else if !client then errorAnswer qid ans msgNoApiKey
        else errorAnswer qid ans (msgNoQuestionText qid)).score = "Incorrect" := by
      revert herr
      split
      · exact fun herr => markAnswerFromContent_error_score herr
      · split
        · exact fun _ => rfl
        · exact fun _ => rfl
    refine ⟨hsc, ?_⟩
    rw [memGetAnswers_memStoreAnswer]
    exact overallAccuracy_append_zero _ _ (by rw [hsc]; rfl)

/-- Store fixture for the C10 witness: one anonymous run with no questions
or answers yet. -/
def c10Store : MemStore :=
  { revisions := [],
    runs := [("r", { id := "r", revisionId := "rev", status := "running", createdAt := "",
                     userId := none, sessionId := some "s" })],
    questions := [], answers := [] }

/-- Witness for C10: a concrete anonymous call with no AI client configured
persists exactly the error-marked answer and scores it into the denominator. -/
theorem c10_submitAnswer_persists_one_row_witness :
    memGetAnswers "r" (memStoreAnswer "r" (errorAnswer "q1" "a" msgNoApiKey) c10Store) =
      memGetAnswers "r" c10Store ++ [errorAnswer "q1" "a" msgNoApiKey] ∧
    (errorAnswer "q1" "a" msgNoApiKey).score = "Incorrect" ∧
    overallAccuracy (memGetAnswers "r"
        (memStoreAnswer "r" (errorAnswer "q1" "a" msgNoApiKey) c10Store)) =
      ((memGetAnswers "r" c10Store).map (fun x => scoreValue x.score)).sum /
        ((memGetAnswers "r" c10Store).length + 1) := by
  have h := c10_submitAnswer_persists_one_row ⟨none, false, "s"⟩ "r" "q1" "a" false "c"
    (fun _ => JsonLoadResult.decodeError) c10Store (errorAnswer "q1" "a" msgNoApiKey)
    (memStoreAnswer "r" (errorAnswer "q1" "a" msgNoApiKey) c10Store) (by decide)
  exact ⟨h.1, (h.2 (by decide)).1, (h.2 (by decide)).2⟩

theorem stamp_no_match {c1 c2 : Caller} (h : c1.ident ≠ c2.ident) :
    (if c2.isAuthenticated then c1.userId == c2.user
     else c1.sessionIdOpt == some c2.sessionId) = false := by
  by_cases h2 : c2.isAuthenticated
  · rw [if_pos h2]
    obtain ⟨u2, hu2⟩ := Option.isSome_iff_exists.mp ((Bool.and_eq_true _ _).mp h2).1
    by_cases h1 : c1.isAuthenticated
    · obtain ⟨u1, hu1⟩ := Option.isSome_iff_exists.mp ((Bool.and_eq_true _ _).mp h1).1
      have hne : u1 ≠ u2 := by
        intro he
        apply h
        unfold Caller.ident
        rw [if_pos h1, if_pos h2, hu1, hu2, he]
      simp [Caller.userId, h1, hu1, hu2, hne]
    · simp [Caller.userId, h1, hu2]
  · rw [if_neg h2]
    by_cases h1 : c1.isAuthenticated
    · simp [Caller.sessionIdOpt, h1]
    · have hne : c1.sessionId ≠ c2.sessionId := by
        intro he
        apply h
        unfold Caller.ident
        rw [if_neg h1, if_neg h2, he]
      simp [Caller.sessionIdOpt, h1, hne]

theorem stamp_no_match_mem {c1 c2 : Caller} (h : c1.ident ≠ c2.ident) :
    (if c2.isAuthenticated then c1.userId == c2.userId
     else c1.sessionIdOpt == some c2.sessionId) = false := by
  have h' := stamp_no_match h
  by_cases h2 : c2.isAuthenticated
  · rw [if_pos h2] at h' ⊢
    rwa [show c2.userId = c2.user from by simp [Caller.userId, h2]]
  · rw [if_neg h2] at h' ⊢
    exact h'

theorem dbGetRevision_create_other {c1 c2 : Caller} (h : c1.ident ≠ c2.ident)
    (d : RevisionData) (rid : String) (db : Db) :
    dbGetRevision c2 rid ((dbCreateRevision c1 d db).2) = dbGetRevision c2 rid db := by
  have hm := stamp_no_match h
  unfold dbGetRevision dbCreateRevision
  by_cases h2 : c2.isAuthenticated
  · rw [if_pos h2] at hm
    simp [h2, List.filter_append, hm]
  · rw [if_neg h2] at hm
    simp [h2, List.filter_append, hm]

theorem dbGetRun_create_other {c1 c2 : Caller} (h : c1.ident ≠ c2.ident)
    (d : RunData) (rid : String) (db : Db) :
    dbGetRun c2 rid ((dbCreateRun c1 d db).2) = dbGetRun c2 rid db := by
  have hm := stamp_no_match h
  unfold dbGetRun dbCreateRun
  by_cases h2 : c2.isAuthenticated
  · rw [if_pos h2] at hm
    simp [h2, List.filter_append, hm]
  · rw [if_neg h2] at hm
    simp [h2, List.filter_append, hm]

theorem dbListRevisions_create_other {c1 c2 : Caller} (h : c1.ident ≠ c2.ident)
    (d : RevisionData) (db : Db) :
    dbListRevisions c2 ((dbCreateRevision c1 d db).2) = dbListRevisions c2 db := by
  have hm := stamp_no_match h
  unfold dbListRevisions dbCreateRevision
  by_cases h2 : c2.isAuthenticated
  · rw [if_pos h2] at hm
    simp [h2, List.filter_append, hm]
  · rw [if_neg h2] at hm
    simp [h2, List.filter_append, hm]

theorem memGetRevision_create_other {c1 c2 : Caller} (h : c1.ident ≠ c2.ident)
    (d : RevisionData) :
    memGetRevision c2 d.id ((memCreateRevision c1 d MemStore.empty).2) = none := by
  have hm := stamp_no_match_mem h
  by_cases h2 : c2.isAuthenticated
  · rw [if_pos h2] at hm
    simp [memGetRevision, memCreateRevision, dictGet_dictSet_self, h2, hm]
  · rw [if_neg h2] at hm
    simp [memGetRevision, memCreateRevision, dictGet_dictSet_self, h2, hm]

theorem memGetRun_create_other {c1 c2 : Caller} (h : c1.ident ≠ c2.ident)
    (d : RunData) :
    memGetRun c2 d.id ((memCreateRun c1 d MemStore.empty).2) = none := by
  have hm := stamp_no_match_mem h
  by_cases h2 : c2.isAuthenticated
  · rw [if_pos h2] at hm
    simp [memGetRun, memCreateRun, dictGet_dictSet_self, h2, hm]
  · rw [if_neg h2] at hm
    simp [memGetRun, memCreateRun, dictGet_dictSet_self, h2, hm]

theorem mem_of_head_eq_some {α : Type} {l : List α} {a : α}
    (h : l.head? = some a) : a ∈ l := by
  cases l with
  | nil => simp at h
  | cons x xs =>
    simp at h
    subst h
    exact List.mem_cons_self _ _

theorem memListRevisions_not_stamped {c1 c2 : Caller} (h : c1.ident ≠ c2.ident)
    (s : MemStore) (r : MemRevision) (hr : r ∈ memListRevisions c2 s) :
    ¬(r.userId = c1.userId ∧ r.sessionId = c1.sessionIdOpt) := by
  rintro ⟨hu, hs⟩
  have hm := stamp_no_match_mem h
  unfold memListRevisions at hr
  by_cases h2 : c2.isAuthenticated
  · rw [if_pos h2] at hr
    rw [if_pos h2] at hm
    have hpred : (r.userId == c2.userId) = true := (List.mem_filter.mp hr).2
    rw [hu, hm] at hpred
    exact absurd hpred (by simp)
  · rw [if_neg h2] at hr
    rw [if_neg h2] at hm
    have hpred : (r.sessionId == some c2.sessionId) = true := (List.mem_filter.mp hr).2
    rw [hs, hm] at hpred
    exact absurd hpred (by simp)

theorem memGetRevision_not_stamped {c1 c2 : Caller} (h : c1.ident ≠ c2.ident)
    (s : MemStore) (rid : String) (r : MemRevision)
    (hr : memGetRevision c2 rid s = some r) :
    ¬(r.userId = c1.userId ∧ r.sessionId = c1.sessionIdOpt) := by
  rintro ⟨hu, hs⟩
  have hm := stamp_no_match_mem h
  unfold memGetRevision at hr
  cases hg : dictGet rid s.revisions with
  | none => rw [hg] at hr; exact absurd hr (by simp)
  | some r0 =>
    rw [hg] at hr
    dsimp only at hr
    by_cases h2 : c2.isAuthenticated
    · rw [if_pos h2] at hr
      rw [if_pos h2] at hm
      by_cases hchk : (r0.userId == c2.userId) = true
      · rw [if_pos hchk] at hr
        injection hr with hr0
        subst hr0
        rw [hu, hm] at hchk
        exact absurd hchk (by simp)
      · rw [if_neg hchk] at hr
        exact absurd hr (by simp)
    · rw [if_neg h2] at hr
      rw [if_neg h2] at hm
      by_cases hchk : (r0.sessionId == some c2.sessionId) = true
      · rw [if_pos hchk] at hr
        injection hr with hr0
        subst hr0
        rw [hs, hm] at hchk
        exact absurd hchk (by simp)
      · rw [if_neg hchk] at hr
        exact absurd hr (by simp)

theorem memGetRun_not_stamped {c1 c2 : Caller} (h : c1.ident ≠ c2.ident)
    (s : MemStore) (rid : String) (r : MemRun)
    (hr : memGetRun c2 rid s = some r) :
    ¬(r.userId = c1.userId ∧ r.sessionId = c1.sessionIdOpt) := by
  rintro ⟨hu, hs⟩
  have hm := stamp_no_match_mem h
  unfold memGetRun at hr
  cases hg : dictGet rid s.runs with
  | none => rw [hg] at hr; exact absurd hr (by simp)
  | some r0 =>
    rw [hg] at hr
    dsimp only at hr
    by_cases h2 : c2.isAuthenticated
    · rw [if_pos h2] at hr
      rw [if_pos h2] at hm
      by_cases hchk : (r0.userId == c2.userId) = true
      · rw [if_pos hchk] at hr
        injection hr with hr0
        subst hr0
        rw [hu, hm] at hchk
        exact absurd hchk (by simp)
      · rw [if_neg hchk] at hr
        exact absurd hr (by simp)
    · rw [if_neg h2] at hr
      rw [if_neg h2] at hm
      by_cases hchk : (r0.sessionId == some c2.sessionId) = true
      · rw [if_pos hchk] at hr
        injection hr with hr0
        subst hr0
        rw [hs, hm] at hchk
        exact absurd hchk (by simp)
      · rw [if_neg hchk] at hr
        exact absurd hr (by simp)

theorem dbListRevisions_not_stamped {c1 c2 : Caller} (h : c1.ident ≠ c2.ident)
    (db : Db) (r : DbRevision) (hr : r ∈ dbListRevisions c2 db) :
    ¬(r.user_id = c1.userId ∧ r.session_id = c1.sessionIdOpt) := by
  rintro ⟨hu, hs⟩
  have hm := stamp_no_match h
  unfold dbListRevisions at hr
  by_cases h2 : c2.isAuthenticated
  · rw [if_pos h2] at hr
    rw [if_pos h2] at hm
    have hpred : (r.user_id == c2.user) = true := (List.mem_filter.mp hr).2
    rw [hu, hm] at hpred
    exact absurd hpred (by simp)
  · rw [if_neg h2] at hr
    rw [if_neg h2] at hm
    have hpred : (r.session_id == some c2.sessionId) = true := (List.mem_filter.mp hr).2
    rw [hs, hm] at hpred
    exact absurd hpred (by simp)

theorem dbGetRevision_not_stamped {c1 c2 : Caller} (h : c1.ident ≠ c2.ident)
    (db : Db) (rid : String) (r : DbRevision)
    (hr : dbGetRevision c2 rid db = some r) :
    ¬(r.user_id = c1.userId ∧ r.session_id = c1.sessionIdOpt) := by
  rintro ⟨hu, hs⟩
  have hm := stamp_no_match h
  unfold dbGetRevision at hr
  by_cases h2 : c2.isAuthenticated
  · rw [if_pos h2] at hr
    rw [if_pos h2] at hm
    have hmem : r ∈ db.revisions.filter (fun x => x.id == rid && x.user_id == c2.user) :=
      mem_of_head_eq_some hr
    have hpred : (r.id == rid && r.user_id == c2.user) = true := (List.mem_filter.mp hmem).2
    have h2nd : (r.user_id == c2.user) = true := ((Bool.and_eq_true _ _).mp hpred).2
    rw [hu, hm] at h2nd
    exact absurd h2nd (by simp)
  · rw [if_neg h2] at hr
    rw [if_neg h2] at hm
    have hmem : r ∈ db.revisions.filter
        (fun x => x.id == rid && x.session_id == some c2.sessionId) :=
      mem_of_head_eq_some hr
    have hpred : (r.id == rid && r.session_id == some c2.sessionId) = true :=
      (List.mem_filter.mp hmem).2
    have h2nd : (r.session_id == some c2.sessionId) = true :=
      ((Bool.and_eq_true _ _).mp hpred).2
    rw [hs, hm] at h2nd
    exact absurd h2nd (by simp)

theorem dbGetRun_not_stamped {c1 c2 : Caller} (h : c1.ident ≠ c2.ident)
    (db : Db) (rid : String) (r : DbRun)
    (hr : dbGetRun c2 rid db = some r) :
    ¬(r.user_id = c1.userId ∧ r.session_id = c1.sessionIdOpt) := by
  rintro ⟨hu, hs⟩
  have hm := stamp_no_match h
  unfold dbGetRun at hr
  by_cases h2 : c2.isAuthenticated
  · rw [if_pos h2] at hr
    rw [if_pos h2] at hm
    have hmem : r ∈ db.runs.filter (fun x => x.id == rid && x.user_id == c2.user) :=
      mem_of_head_eq_some hr
    have hpred : (r.id == rid && r.user_id == c2.user) = true := (List.mem_filter.mp hmem).2
    have h2nd : (r.user_id == c2.user) = true := ((Bool.and_eq_true _ _).mp hpred).2
    rw [hu, hm] at h2nd
    exact absurd h2nd (by simp)
  · rw [if_neg h2] at hr
    rw [if_neg h2] at hm
    have hmem : r ∈ db.runs.filter
        (fun x => x.id == rid && x.session_id == some c2.sessionId) :=
      mem_of_head_eq_some hr
    have hpred : (r.id == rid && r.session_id == some c2.sessionId) = true :=
      (List.mem_filter.mp hmem).2
    have h2nd : (r.session_id == some c2.sessionId) = true :=
      ((Bool.and_eq_true _ _).mp hpred).2
    rw [hs, hm] at h2nd
    exact absurd h2nd (by simp)

/-- Caller fixture for the C1 counterexample: an authenticated user. -/
def c1Alice : Caller := ⟨some "alice", true, "sa"⟩

/-- Caller fixture for the C1 counterexample: a distinct anonymous session. -/
def c1Mallory : Caller := ⟨none, true, "mallory"⟩

/-- Database fixture for the C1 counterexample: alice's revision, run `r1`
and one stored question. -/
def c1Db : Db :=
  dbStoreQuestions "r1" [⟨"r1-q1", "What is x?", none⟩]
    ((dbCreateRun c1Alice ⟨"r1", "rev1", "running", ""⟩
      ((dbCreateRevision c1Alice ⟨"rev1", "Algebra", "Mathematics", 80⟩ Db.empty).2)).2)

/-- C1 counterexample: the question rows of a run stamped with one identity
(user `alice`) do match a lookup performed under a distinct identity
(anonymous session `mallory`): `get_questions` — and the question-count
endpoint built on it — filters by run id only, so the claimed scoping fails
for `getQuestions`/`getAnswers`/`storeAnswer`. -/
theorem c1_counterexample :
    c1Alice.ident ≠ c1Mallory.ident ∧
    c1Db.runs.map DbRun.user_id = [some "alice"] ∧
    getQuestionCountDb c1Mallory "r1" c1Db = 1 ∧
    (dbGetQuestions "r1" c1Db).map DbQuestion.question_text = ["What is x?"] := by
  decide

/-- C1 (amended): revision and run reads are identity-scoped on both
backends, universally over stores — creating a row under one identity never
changes what `get_revision` / `get_run` / `list_revisions` return to any
distinct identity on the relational backend, and on either backend any row a
lookup or listing does return to a caller is never one stamped with a
distinct identity (stamped meaning it carries exactly the `userId` /
`sessionId` fields that identity's creates write) — but `get_questions` and
the question-count / next-question endpoints built on
`get_questions`/`get_answers` are keyed by run id only and never consult the
caller's identity, returning identical results for every pair of identities
(`store_answer` likewise takes no identity at all in the adapter). -/
theorem c1_scoping_amended :
    ∀ (c1 c2 : Caller), c1.ident ≠ c2.ident →
      (∀ (d : RevisionData) (rid : String) (db : Db),
        dbGetRevision c2 rid ((dbCreateRevision c1 d db).2) = dbGetRevision c2 rid db) ∧
      (∀ (d : RunData) (rid : String) (db : Db),
        dbGetRun c2 rid ((dbCreateRun c1 d db).2) = dbGetRun c2 rid db) ∧
      (∀ (d : RevisionData) (db : Db),
        dbListRevisions c2 ((dbCreateRevision c1 d db).2) = dbListRevisions c2 db) ∧
      (∀ (db : Db) (r : DbRevision), r ∈ dbListRevisions c2 db →
        ¬(r.user_id = c1.userId ∧ r.session_id = c1.sessionIdOpt)) ∧
      (∀ (db : Db) (rid : String) (r : DbRevision), dbGetRevision c2 rid db = some r →
        ¬(r.user_id = c1.userId ∧ r.session_id = c1.sessionIdOpt)) ∧
      (∀ (db : Db) (rid : String) (r : DbRun), dbGetRun c2 rid db = some r →
        ¬(r.user_id = c1.userId ∧ r.session_id = c1.sessionIdOpt)) ∧
      (∀ (d : RevisionData),
        memGetRevision c2 d.id ((memCreateRevision c1 d MemStore.empty).2) = none) ∧
      (∀ (d : RunData),
        memGetRun c2 d.id ((memCreateRun c1 d MemStore.empty).2) = none) ∧
      (∀ (s : MemStore) (r : MemRevision), r ∈ memListRevisions c2 s →
        ¬(r.userId = c1.userId ∧ r.sessionId = c1.sessionIdOpt)) ∧
      (∀ (s : MemStore) (rid : String) (r : MemRevision), memGetRevision c2 rid s = some r →
        ¬(r.userId = c1.userId ∧ r.sessionId = c1.sessionIdOpt)) ∧
      (∀ (s : MemStore) (rid : String) (r : MemRun), memGetRun c2 rid s = some r →
        ¬(r.userId = c1.userId ∧ r.sessionId = c1.sessionIdOpt)) ∧
      (∀ (rid : String) (s : MemStore) (db : Db),
        getQuestionCountMem c1 rid s = getQuestionCountMem c2 rid s ∧
        getNextQuestionMem c1 rid s = getNextQuestionMem c2 rid s ∧
        getQuestionCountDb c1 rid db = getQuestionCountDb c2 rid db) := by
  intro c1 c2 h
  exact ⟨fun d rid db => dbGetRevision_create_other h d rid db,
         fun d rid db => dbGetRun_create_other h d rid db,
         fun d db => dbListRevisions_create_other h d db,
         fun db r hr => dbListRevisions_not_stamped h db r hr,
         fun db rid r hr => dbGetRevision_not_stamped h db rid r hr,
         fun db rid r hr => dbGetRun_not_stamped h db rid r hr,
         fun d => memGetRevision_create_other h d,
         fun d => memGetRun_create_other h d,
         fun s r hr => memListRevisions_not_stamped h s r hr,
         fun s rid r hr => memGetRevision_not_stamped h s rid r hr,
         fun s rid r hr => memGetRun_not_stamped h s rid r hr,
         fun _ _ _ => ⟨rfl, rfl, rfl⟩⟩

/-- Witness for C1 (amended) at two concrete distinct identities, exercising
the relational create-noninterference, the fallback lookup on a fresh row,
and the row-level clause on a populated store whose lookup succeeds. -/
theorem c1_scoping_amended_witness :
    dbGetRevision ⟨none, true, "sb"⟩ "rev9"
        ((dbCreateRevision ⟨some "alice", true, "sa"⟩ ⟨"rev9", "n", "s", 80⟩ Db.empty).2) =
      dbGetRevision ⟨none, true, "sb"⟩ "rev9" Db.empty ∧
    memGetRevision ⟨none, false, "sb"⟩ "rev9"
        ((memCreateRevision ⟨none, false, "sa"⟩ ⟨"rev9", "n", "s", 80⟩ MemStore.empty).2) =
      none ∧
    ¬((⟨"rev9", "n", "s", 80, none, some "sb"⟩ : MemRevision).userId =
        (⟨none, false, "sa"⟩ : Caller).userId ∧
      (⟨"rev9", "n", "s", 80, none, some "sb"⟩ : MemRevision).sessionId =
        (⟨none, false, "sa"⟩ : Caller).sessionIdOpt) := by
  refine ⟨?_, ?_, ?_⟩
  · exact (c1_scoping_amended ⟨some "alice", true, "sa"⟩ ⟨none, true, "sb"⟩ (by decide)).1
      ⟨"rev9", "n", "s", 80⟩ "rev9" Db.empty
  · exact (c1_scoping_amended ⟨none, false, "sa"⟩ ⟨none, false, "sb"⟩
      (by decide)).2.2.2.2.2.2.1 ⟨"rev9", "n", "s", 80⟩
  · exact (c1_scoping_amended ⟨none, false, "sa"⟩ ⟨none, false, "sb"⟩
      (by decide)).2.2.2.2.2.2.2.2.2.1
      ((memCreateRevision ⟨none, false, "sb"⟩ ⟨"rev9", "n", "s", 80⟩ MemStore.empty).2)
      "rev9" ⟨"rev9", "n", "s", 80, none, some "sb"⟩ (by decide)

theorem dbDeleteRevision_eq_of_found (c : Caller) (rid : String) (db : Db) (row : DbRevision)
    (hauth : c.isAuthenticated = true)
    (hfind : (db.revisions.filter (fun r => r.id == rid && r.user_id == c.user)).head? =
      some row) :
    dbDeleteRevision c rid db =
      (true,
       { revisions := db.revisions.filter (fun r => !(r.id == rid)),
         runs := db.runs.filter (fun r => !(r.revision_id == rid)),
         questions := db.questions.filter (fun q =>
           !(((db.runs.filter (fun r => r.revision_id == rid)).map DbRun.id).contains q.run_id)),
         answers := db.answers.filter (fun a =>
           !(((db.runs.filter (fun r => r.revision_id == rid)).map DbRun.id).contains a.run_id)),
         clock := db.clock }) := by
  unfold dbDeleteRevision
  rw [if_neg (by simp [hauth]), hfind]

theorem dbDeleteRevision_cascades (c : Caller) (rid : String) (db : Db)
    (hok : (dbDeleteRevision c rid db).1 = true) :
    (∀ r ∈ (dbDeleteRevision c rid db).2.revisions, r.id ≠ rid) ∧
    (∀ run ∈ (dbDeleteRevision c rid db).2.runs, run.revision_id ≠ rid) ∧
    (∀ run ∈ db.runs, run.revision_id = rid →
      dbGetQuestions run.id (dbDeleteRevision c rid db).2 = [] ∧
      dbGetAnswers run.id (dbDeleteRevision c rid db).2 = []) := by
  by_cases hauth : c.isAuthenticated
  · cases hfind : (db.revisions.filter (fun r => r.id == rid && r.user_id == c.user)).head? with
    | none =>
      exfalso
      unfold dbDeleteRevision at hok
      rw [if_neg (by simp [hauth]), hfind] at hok
      simp at hok
    | some row =>
      rw [dbDeleteRevision_eq_of_found c rid db row hauth hfind]
      refine ⟨?_, ?_, ?_⟩
      · intro r hr
        have hpr := (List.mem_filter.mp hr).2
        simpa using hpr
      · intro run hrun
        have hpr := (List.mem_filter.mp hrun).2
        simpa using hpr
      · intro run hrun hrid
        have hdead : run.id ∈ (db.runs.filter (fun r => r.revision_id == rid)).map DbRun.id :=
          List.mem_map.mpr ⟨run, List.mem_filter.mpr ⟨hrun, by simp [hrid]⟩, rfl⟩
        constructor
        · unfold dbGetQuestions
          have hnil : ((db.questions.filter (fun q =>
              !(((db.runs.filter (fun r => r.revision_id == rid)).map
                DbRun.id).contains q.run_id))).filter
              (fun q => q.run_id == run.id)) = [] := by
            rw [List.filter_eq_nil_iff]
            intro q hq
            rcases List.mem_filter.mp hq with ⟨_, hnc⟩
            simp only [Bool.not_eq_true'] at hnc
            simp only [beq_iff_eq]
            intro hqe
            rw [hqe] at hnc
            exact absurd (List.elem_iff.mpr hdead) (ne_true_of_eq_false hnc)
          rw [hnil]
          rfl
        · unfold dbGetAnswers
          have hnil : ((db.answers.filter (fun a =>
              !(((db.runs.filter (fun r => r.revision_id == rid)).map
                DbRun.id).contains a.run_id))).filter
              (fun a => a.run_id == run.id)) = [] := by
            rw [List.filter_eq_nil_iff]
            intro a ha
            rcases List.mem_filter.mp ha with ⟨_, hnc⟩
            simp only [Bool.not_eq_true'] at hnc
            simp only [beq_iff_eq]
            intro hae
            rw [hae] at hnc
            exact absurd (List.elem_iff.mpr hdead) (ne_true_of_eq_false hnc)
          rw [hnil]
          rfl
  · exfalso
    unfold dbDeleteRevision at hok
    rw [if_pos (by simp [hauth])] at hok
    simp at hok

/-- Caller fixture for C3 against the fallback backend: a user object is
present but no database session (when the fallback is active, `db` is
`None`). -/
def c3MemCaller : Caller := ⟨some "u1", false, "s1"⟩

/-- Caller fixture for C3 against the relational backend: same user, with a
database session. -/
def c3DbCaller : Caller := ⟨some "u1", true, "s1"⟩

/-- Revision payload fixture for C3. -/
def c3RevData : RevisionData := ⟨"rev1", "Algebra", "Mathematics", 80⟩

/-- Fallback store fixture for C3: the revision created by the caller. -/
def c3Mem : MemStore := (memCreateRevision c3MemCaller c3RevData MemStore.empty).2

/-- Relational fixture for C3: the revision with a run, a question and an
answer. -/
def c3DbFull : Db :=
  dbStoreAnswer "r1" (errorAnswer "r1-q1" "a" "m")
    (dbStoreQuestions "r1" [⟨"r1-q1", "Q?", none⟩]
      ((dbCreateRun c3DbCaller ⟨"r1", "rev1", "running", ""⟩
        ((dbCreateRevision c3DbCaller c3RevData Db.empty).2)).2))

/-- C3 counterexample: for the same caller (user `u1`), the fallback stamps
the created revision with the session id and no user id while the durable
store stamps the user id; and the caller's own `delete_revision` fails and
removes nothing under the fallback, whereas it succeeds under the durable
store and cascades away the revision's runs, questions and answers. -/
theorem c3_counterexample :
    ((memCreateRevision c3MemCaller c3RevData MemStore.empty).1.userId = none ∧
     (memCreateRevision c3MemCaller c3RevData MemStore.empty).1.sessionId = some "s1") ∧
    ((dbCreateRevision c3DbCaller c3RevData Db.empty).1.user_id = some "u1" ∧
     (dbCreateRevision c3DbCaller c3RevData Db.empty).1.session_id = none) ∧
    memDeleteRevision c3MemCaller "rev1" c3Mem = (false, c3Mem) ∧
    (dbDeleteRevision c3DbCaller "rev1" c3DbFull).1 = true ∧
    (dbDeleteRevision c3DbCaller "rev1" c3DbFull).2.runs = [] ∧
    (dbDeleteRevision c3DbCaller "rev1" c3DbFull).2.questions = [] ∧
    (dbDeleteRevision c3DbCaller "rev1" c3DbFull).2.answers = [] := by
  decide

/-- C3 (amended): the fallback does not behave identically to the durable
store — because `is_authenticated` requires a database session, the fallback
stamps every created row with the session id and never a user id and its
`delete_revision` always fails leaving the store unchanged (hence never
cascades); the durable store stamps authenticated callers' rows with their
user id, and a successful `delete_revision` there removes the revision and
cascades to its runs and their questions and answers. -/
theorem c3_backend_divergence_amended :
    ∀ (u sid rid : String) (d : RevisionData) (s : MemStore) (c : Caller) (db : Db),
      (c.dbPresent = false →
        (memCreateRevision c d s).1.userId = none ∧
        (memCreateRevision c d s).1.sessionId = some c.sessionId ∧
        memDeleteRevision c rid s = (false, s)) ∧
      ((dbCreateRevision ⟨some u, true, sid⟩ d db).1.user_id = some u ∧
       (dbCreateRevision ⟨some u, true, sid⟩ d db).1.session_id = none) ∧
      ((dbDeleteRevision c rid db).1 = true →
        (∀ r ∈ (dbDeleteRevision c rid db).2.revisions, r.id ≠ rid) ∧
        (∀ run ∈ (dbDeleteRevision c rid db).2.runs, run.revision_id ≠ rid) ∧
        (∀ run ∈ db.runs, run.revision_id = rid →
          dbGetQuestions run.id (dbDeleteRevision c rid db).2 = [] ∧
          dbGetAnswers run.id (dbDeleteRevision c rid db).2 = [])) := by
  intro u sid rid d s c db
  refine ⟨?_, ⟨rfl, rfl⟩, dbDeleteRevision_cascades c rid db⟩
  intro hdb
  have hauth : c.isAuthenticated = false := by
    simp [Caller.isAuthenticated, hdb]
  refine ⟨?_, ?_, ?_⟩
  · simp [memCreateRevision, Caller.userId, hauth]
  · simp [memCreateRevision, Caller.sessionIdOpt, hauth]
  · unfold memDeleteRevision
    cases dictGet rid s.revisions with
    | none => rfl
    | some r => simp [hauth]

/-- Witness for C3 (amended) at the concrete C3 fixtures. -/
theorem c3_backend_divergence_amended_witness :
    ((memCreateRevision c3MemCaller c3RevData c3Mem).1.userId = none ∧
     (memCreateRevision c3MemCaller c3RevData c3Mem).1.sessionId = some "s1" ∧
     memDeleteRevision c3MemCaller "rev1" c3Mem = (false, c3Mem)) ∧
    ∀ run ∈ c3DbFull.runs, run.revision_id = "rev1" →
      dbGetQuestions run.id (dbDeleteRevision c3DbCaller "rev1" c3DbFull).2 = [] ∧
      dbGetAnswers run.id (dbDeleteRevision c3DbCaller "rev1" c3DbFull).2 = [] := by
  have h := c3_backend_divergence_amended "u1" "s1" "rev1" c3RevData c3Mem c3MemCaller c3DbFull
  refine ⟨h.1 rfl, ?_⟩
  have h2 := c3_backend_divergence_amended "u1" "s1" "rev1" c3RevData c3Mem c3DbCaller c3DbFull
  exact (h2.2.2 (by decide)).2.2

theorem optionLine?_letter {l : String} {pr : String × String}
    (h : optionLine? l = some pr) :
    pr.1 = "A" ∨ pr.1 = "B" ∨ pr.1 = "C" ∨ pr.1 = "D" := by
  simp only [optionLine?] at h
  cases hd : (pyStrip l).data with
  | nil => rw [hd] at h; exact absurd h (by simp)
  | cons c rest0 =>
    cases rest0 with
    | nil => rw [hd] at h; exact absurd h (by simp)
    | cons p rest =>
      rw [hd] at h
      dsimp only at h
      by_cases hc : ((c == 'A' || c == 'B' || c == 'C' || c == 'D') && p == ')') = true
      · rw [if_pos hc] at h
        have hfst : pr.1 = String.mk [c] := by
          cases h
          rfl
        have hcs := ((Bool.and_eq_true _ _).mp hc).1
        have : c = 'A' ∨ c = 'B' ∨ c = 'C' ∨ c = 'D' := by
          have := hcs
          simp only [Bool.or_eq_true, beq_iff_eq] at this
          tauto
        rcases this with h' | h' | h' | h' <;> subst h' <;> simp [hfst]
      · rw [if_neg hc] at h
        exact absurd h (by simp)

/-- C6 (spec-modelled): a structured-text block whose `CORRECT` letter does
not match any parsed option is excluded — option letters are restricted to
A-D, so in particular `CORRECT: E` never matches — and when every block of
the input is excluded and the JSON fallback fails to parse, the parser
returns zero questions without raising. -/
theorem c6_invalid_correct_excluded :
    (∀ (bl : List String) (letter : String),
      letter ∈ blockOptionLetters bl →
      letter = "A" ∨ letter = "B" ∨ letter = "C" ∨ letter = "D") ∧
    (∀ (bl : List String) (cl : String),
      blockCorrectLetter bl = some cl → cl ∉ blockOptionLetters bl →
      parseMcBlock bl = none) ∧
    (∀ (jsonArr : String → Option (List McJsonItem)) (content runId : String) (n : Nat),
      (∀ bl ∈ splitBlocks (strLines content), parseMcBlock bl = none) →
      jsonArr content = none →
      parseMultipleChoiceQuestions jsonArr content runId n = []) := by
  refine ⟨?_, ?_, ?_⟩
  · intro bl letter hmem
    unfold blockOptionLetters at hmem
    rcases List.mem_map.mp hmem with ⟨pr, hpr, rfl⟩
    rcases List.mem_filterMap.mp hpr with ⟨l, _, hline⟩
    exact optionLine?_letter hline
  · intro bl cl hcl hnmem
    unfold parseMcBlock
    rw [hcl]
    cases hqt : blockQuestionText bl with
    | none => rfl
    | some qt =>
      by_cases hemp : (blockOptions bl).isEmpty
      · simp [hemp]
      · have hidx : ((blockOptions bl).map Prod.fst).findIdx? (fun letter => letter == cl) =
            none := by
          rw [List.findIdx?_eq_none_iff]
          intro x hx
          have : x ≠ cl := by
            intro he
            exact hnmem (he ▸ hx)
          simp [this]
        simp [hemp, hidx]
  · intro jsonArr content runId n hblocks hjson
    unfold parseMultipleChoiceQuestions
    have hacc : (splitBlocks (strLines content)).filterMap parseMcBlock = [] := by
      rw [List.filterMap_eq_nil_iff]
      exact hblocks
    rw [hacc, hjson]
    rfl

/-- Witness for C6: spec scenario B — `CORRECT: E` with options A-D — yields
zero questions (the input is not a JSON array either, so the fallback parse
fails). -/
theorem c6_invalid_correct_excluded_witness :
    parseMultipleChoiceQuestions (fun _ => none)
      "QUESTION: What is 2 + 2?\nA) 3\nB) 4\nC) 5\nD) 6\nCORRECT: E\nRATIONALE: math"
      "r1" 10 = [] := by
  exact c6_invalid_correct_excluded.2.2 (fun _ => none)
    "QUESTION: What is 2 + 2?\nA) 3\nB) 4\nC) 5\nD) 6\nCORRECT: E\nRATIONALE: math"
    "r1" 10 (by decide) rfl
